import Mathlib

/-!
Verification of the FortCore rollback subsystem (endstone_FortCore).

This file shallowly embeds the match-state tracker and rollback engine of
`src/endstone_fortcore/fortcore.py` (the main plugin, fixed batch policy) and
the adaptive-batch pieces of `src/endstone_fortcore/rollback.py`
(`RollbackManager`), and proves the spec's testable properties about them.

Modelling conventions:
- the world is a total map from integer coordinates to block-type strings
  (the host server's `get_block_at` / `block.type =` interface);
- the per-player durable CSV log is `Option (List RollbackAction)`:
  `none` means the file does not exist, `some rows` means it exists with its
  header line and `rows` data rows (row values round-trip through the CSV
  layer unchanged, so rows are kept typed);
- python float timestamps are modelled as `Nat`; no code path ever reads a
  timestamp back, so only their presence matters;
- scheduler callbacks run to completion: a repeating task is modelled by a
  recursion that performs one `process_rollback_batch` invocation per step;
- exceptions raised and caught inside a function body are modelled by the
  function returning its inputs unchanged on the failing branch.
-/

namespace FortCore

/-- Block-type strings, e.g. `"minecraft:stone"`. -/
abbrev BlockType := String

/-- Integer block coordinates `(x, y, z)`. -/
abbrev Coord := Int × Int × Int

/-- The world: the block type at every coordinate (the host server's block
store accessed through `get_block_at`/`setblock`). -/
def World := Coord → BlockType

/-- `GameState` enum from `fortcore.py` (lines 17-24). -/
inductive GameState where
  | LOBBY
  | QUEUE
  | TELEPORTING
  | MATCH
  | ROLLBACK
  | END
  deriving DecidableEq, Repr

/-- `RollbackAction` from `fortcore.py` (lines 26-34): one logged block
mutation. `action_type` is the literal string `"break"` or `"place"` written
by the event handlers (the code branches on these strings, so the field is
kept as a string). -/
structure RollbackAction where
  action_type : String
  x : Int
  y : Int
  z : Int
  block_type : BlockType
  timestamp : Nat
  deriving DecidableEq, Repr

/-- The coordinate a rollback action targets. -/
def recPos (a : RollbackAction) : Coord := (a.x, a.y, a.z)

/-- `PlayerData` from `fortcore.py` (lines 36-46). `csv_path` holds the
per-player log path when rollback tracking is initialized. -/
structure PlayerData where
  uuid : String
  state : GameState
  rollback_buffer : List RollbackAction
  csv_path : Option String
  current_map : Option String
  current_kit : Option String
  pending_rollback_actions : List RollbackAction
  deriving DecidableEq, Repr

/-- A fresh `PlayerData(uuid)` record as built by the constructor:
LOBBY state, empty buffers, no log file, no match info. -/
def PlayerData.mk0 (uuid : String) : PlayerData :=
  ⟨uuid, GameState.LOBBY, [], none, none, none, []⟩

/-- The deterministic per-player log file name `rollback_<uuid>.csv`
(`fortcore.py` line 510). -/
def csvName (uuid : String) : String := "rollback_" ++ uuid ++ ".csv"

/-- Write one block type at one coordinate (`block.type = t` at `(x,y,z)`). -/
def setBlockAt (w : World) (x y z : Int) (t : BlockType) : World :=
  fun c => if c = (x, y, z) then t else w c

/-- `FortCore.revert_action` (`fortcore.py` lines 724-761), success path:
a `"place"` record sets its coordinate to air, a `"break"` record restores
the recorded original block type, any other action type does nothing.
Coordinate-parse and world-lookup failures of the same function are modelled
separately by `revert_action_str` below. -/
def revert_action (w : World) (action : RollbackAction) : World :=
  if action.action_type = "place" then
    setBlockAt w action.x action.y action.z "minecraft:air"
  else if action.action_type = "break" then
    setBlockAt w action.x action.y action.z action.block_type
  else w

/-- `FortCore.read_rollback_csv` (`fortcore.py` lines 691-701), success path:
read all data rows and reverse them. The I/O-failure path is modelled by
`read_rollback_csv_io` below. -/
def read_rollback_csv (rows : List RollbackAction) : List RollbackAction :=
  rows.reverse

/-- One invocation of `FortCore.process_rollback_batch` (`fortcore.py` lines
703-722) restricted to its world/queue effect: pop and revert up to 2 actions
from the front of the pending queue. -/
def process_rollback_batch (w : World) (actions : List RollbackAction) :
    World × List RollbackAction :=
  match actions with
  | [] => (w, [])
  | [a] => (revert_action w a, [])
  | a :: b :: rest => (revert_action (revert_action w a) b, rest)

/-- The world after repeatedly invoking `process_rollback_batch` until the
pending queue is empty (the repeating task scheduled by `start_rollback`). -/
def drainFixed (w : World) (l : List RollbackAction) : World :=
  match l with
  | [] => w
  | [a] => revert_action w a
  | a :: b :: rest => drainFixed (revert_action (revert_action w a) b) rest

/-- The actions applied by the full replay, in application order: each
invocation of the repeating task contributes the (up to 2) actions it pops
from the front of the pending queue. -/
def drain_trace (l : List RollbackAction) : List RollbackAction :=
  match l with
  | [] => []
  | [a] => [a]
  | a :: b :: rest => a :: b :: drain_trace rest

/-- Number of invocations of the repeating task that pop actions while
draining a pending queue (each invocation removes `min 2 len` actions;
the invocation that empties the queue calls `finish_rollback` itself). -/
def drain_steps (l : List RollbackAction) : Nat :=
  match l with
  | [] => 0
  | [_] => 1
  | _ :: _ :: rest => drain_steps rest + 1

/-- `RollbackManager.calculate_batch_params` (`rollback.py` lines 149-158):
adaptive batch size and tick interval by backlog size, using the constants
`SMALL_BATCH = 10`, `MEDIUM_BATCH = 25`, `LARGE_BATCH = 40`,
`HUGE_BATCH = 60`. -/
def calculate_batch_params (total_actions : Nat) : Nat × Nat :=
  if total_actions < 100 then (10, 1)
  else if total_actions < 500 then (25, 1)
  else if total_actions < 1000 then (40, 1)
  else (60, 1)

/-- One invocation of `RollbackManager.process_rollback_batch` (`rollback.py`
lines 323-367) restricted to its world/queue effect in the ROLLBACK state:
pop and revert up to `calculate_batch_params` actions from the front.
(Its `revert_action` differs from the fixed-policy one only by an extra
`"cleanup"` branch that also writes air; the batch accounting proved about
this function does not depend on the per-record write.) -/
def process_rollback_batch_mgr (w : World) (actions : List RollbackAction) :
    World × List RollbackAction :=
  let bs := (calculate_batch_params actions.length).1
  ((actions.take bs).foldl revert_action w, actions.drop bs)

/-- `FortCore.flush_buffer` (`fortcore.py` lines 567-591): if the player has
a log path and a non-empty buffer, append the whole buffer to the log file
(creating it when absent, as python append mode does) and clear the buffer;
otherwise do nothing. -/
def flush_buffer (d : PlayerData) (file : Option (List RollbackAction)) :
    PlayerData × Option (List RollbackAction) :=
  match d.csv_path, d.rollback_buffer with
  | none, _ => (d, file)
  | some _, [] => (d, file)
  | some _, b :: bs =>
      ({ d with rollback_buffer := [] }, some ((file.getD []) ++ (b :: bs)))

/-- The fields `finish_rollback` clears before returning the player to the
lobby (`fortcore.py` lines 788-793 and 806-807, player offline). -/
def PlayerData.cleared (d : PlayerData) : PlayerData :=
  { d with rollback_buffer := [], pending_rollback_actions := [],
           csv_path := none, current_kit := none, current_map := none,
           state := GameState.LOBBY }

/-- `FortCore.finish_rollback` (`fortcore.py` lines 763-808) with the player
offline: no-op unless the player is in ROLLBACK; otherwise cancel the task,
delete the log file (when a path is recorded), clear all rollback
bookkeeping and set the state to LOBBY. -/
def finish_rollback_off (w : World) (file : Option (List RollbackAction))
    (d : PlayerData) : World × Option (List RollbackAction) × PlayerData :=
  if d.state ≠ GameState.ROLLBACK then (w, file, d)
  else (w, if d.csv_path.isSome then none else file, d.cleared)

/-- The repeating rollback task run to completion: each step is one
invocation of `FortCore.process_rollback_batch` (pop and revert up to 2
actions); the invocation that finds or leaves an empty queue calls
`finish_rollback` (player offline). -/
def run_rollback_task (w : World) (file : Option (List RollbackAction))
    (d : PlayerData) : World × Option (List RollbackAction) × PlayerData :=
  match hp : d.pending_rollback_actions with
  | [] => finish_rollback_off w file d
  | [a] =>
      finish_rollback_off (revert_action w a) file
        { d with pending_rollback_actions := [] }
  | a :: b :: rest =>
      run_rollback_task (revert_action (revert_action w a) b) file
        { d with pending_rollback_actions := rest }
termination_by d.pending_rollback_actions.length
decreasing_by simp [hp]; omega

/-- Result of a `start_rollback` call: the world, the player's log file, the
player's record, and whether a repeating replay task was scheduled. -/
structure StartResult where
  world : World
  file : Option (List RollbackAction)
  data : PlayerData
  task_scheduled : Bool

/-- `FortCore.start_rollback` (`fortcore.py` lines 658-689): no-op if the
player is already in ROLLBACK; otherwise set ROLLBACK, flush the buffer,
and, when the log file exists and holds actions, store the reversed actions
as the pending queue and schedule the repeating batch task; with no file or
no actions, finish immediately. -/
def start_rollback (w : World) (file : Option (List RollbackAction))
    (d : PlayerData) : StartResult :=
  if d.state = GameState.ROLLBACK then ⟨w, file, d, false⟩
  else
    let d1 := { d with state := GameState.ROLLBACK }
    let fb := flush_buffer d1 file
    match fb.1.csv_path, fb.2 with
    | some _, some rows =>
        let actions := read_rollback_csv rows
        if actions = [] then
          let fin := finish_rollback_off w fb.2 fb.1
          ⟨fin.1, fin.2.1, fin.2.2, false⟩
        else ⟨w, fb.2, { fb.1 with pending_rollback_actions := actions }, true⟩
    | _, _ =>
        let fin := finish_rollback_off w fb.2 fb.1
        ⟨fin.1, fin.2.1, fin.2.2, false⟩

/-- A live-triggered rollback run to completion: `start_rollback`, then the
scheduled repeating task (if any) until the queue drains (player offline). -/
def live_rollback (w : World) (file : Option (List RollbackAction))
    (d : PlayerData) : World × Option (List RollbackAction) × PlayerData :=
  let r := start_rollback w file d
  if r.task_scheduled then run_rollback_task r.world r.file r.data
  else (r.world, r.file, r.data)

/-- `FortCore.resume_incomplete_rollbacks` (`fortcore.py` lines 101-162)
restricted to one player's log file, with the scheduled task run to
completion: a missing file touches nothing; a file with only its header
(no data rows) is deleted with no replay; a file with rows forces the
player's (possibly freshly created) record into ROLLBACK, stores the
reversed rows as the pending queue and runs the repeating batch task. -/
def resume_one (w : World) (uuid : String)
    (file : Option (List RollbackAction)) (pre : Option PlayerData) :
    World × Option (List RollbackAction) × Option PlayerData :=
  match file with
  | none => (w, none, pre)
  | some rows =>
    if rows = [] then (w, none, pre)
    else
      let d0 := match pre with
        | some d => d
        | none => PlayerData.mk0 uuid
      let d1 := { d0 with csv_path := some (csvName uuid),
                          state := GameState.ROLLBACK }
      let actions := read_rollback_csv rows
      if actions = [] then (w, none, some d1)
      else
        let r := run_rollback_task w (some rows)
          { d1 with pending_rollback_actions := actions }
        (r.1, r.2.1, some r.2.2)

/-- `FortCore.on_block_break` (`fortcore.py` lines 519-538): no-op unless
the player is in MATCH; otherwise append a `"break"` record capturing the
block type currently at the broken coordinate. The handler performs no file
I/O. -/
def on_block_break (w : World) (d : PlayerData)
    (file : Option (List RollbackAction)) (x y z : Int) (ts : Nat) :
    PlayerData × Option (List RollbackAction) :=
  if d.state ≠ GameState.MATCH then (d, file)
  else
    ({ d with rollback_buffer :=
        d.rollback_buffer ++ [⟨"break", x, y, z, w (x, y, z), ts⟩] }, file)

/-- `FortCore.on_block_place` (`fortcore.py` lines 540-559): no-op unless
the player is in MATCH; otherwise append a `"place"` record with the placed
block's type. The handler performs no file I/O. -/
def on_block_place (d : PlayerData) (file : Option (List RollbackAction))
    (x y z : Int) (t : BlockType) (ts : Nat) :
    PlayerData × Option (List RollbackAction) :=
  if d.state ≠ GameState.MATCH then (d, file)
  else
    ({ d with rollback_buffer :=
        d.rollback_buffer ++ [⟨"place", x, y, z, t, ts⟩] }, file)

/-- One block mutation performed by the player during a match: a break at a
coordinate, or a placement of a block type at a coordinate. -/
inductive BlockEvent where
  | break_ev (x y z : Int)
  | place_ev (x y z : Int) (t : BlockType)
  deriving DecidableEq, Repr

/-- The coordinate a block event touches. -/
def eventPos : BlockEvent → Coord
  | .break_ev x y z => (x, y, z)
  | .place_ev x y z _ => (x, y, z)

/-- The world after the server applies a block event: a break leaves air, a
placement leaves the placed type. -/
def applyEventWorld (w : World) : BlockEvent → World
  | .break_ev x y z => setBlockAt w x y z "minecraft:air"
  | .place_ev x y z t => setBlockAt w x y z t

/-- The record the matching event handler appends for a block event fired
against world `w`: a break captures the pre-break type `w (x,y,z)`, a
placement captures the placed type. -/
def eventRecord (w : World) : BlockEvent → RollbackAction
  | .break_ev x y z => ⟨"break", x, y, z, w (x, y, z), 0⟩
  | .place_ev x y z t => ⟨"place", x, y, z, t, 0⟩

/-- A sequence of block events dispatched to the event handlers, each
followed by the server's world mutation. Returns the final world, the
player's record (with the grown buffer) and the (untouched) log file. -/
def play_events (w : World) (d : PlayerData)
    (file : Option (List RollbackAction)) :
    List BlockEvent → World × PlayerData × Option (List RollbackAction)
  | [] => (w, d, file)
  | (BlockEvent.break_ev x y z) :: es =>
      let h := on_block_break w d file x y z 0
      play_events (applyEventWorld w (BlockEvent.break_ev x y z)) h.1 h.2 es
  | (BlockEvent.place_ev x y z t) :: es =>
      let h := on_block_place d file x y z t 0
      play_events (applyEventWorld w (BlockEvent.place_ev x y z t)) h.1 h.2 es

/-- Pure view of a match: the world after a list of block events and the
list of records the handlers buffer for them, in event-arrival order. -/
def runMatch (w : World) : List BlockEvent → World × List RollbackAction
  | [] => (w, [])
  | e :: es =>
      let r := runMatch (applyEventWorld w e) es
      (r.1, eventRecord w e :: r.2)

/-- A player record as `teleport_to_match`/`init_rollback` leaves it when a
match starts: MATCH state, empty buffers, log file path recorded (the file
itself holds just its header). -/
def matchStart (uuid : String) : PlayerData :=
  { PlayerData.mk0 uuid with state := GameState.MATCH,
                             csv_path := some (csvName uuid) }

/-- Flush the buffer of a post-match `(world, data, file)` triple and
reverse-replay the flushed log (`read_rollback_csv` followed by repeated
`process_rollback_batch`); returns the replayed world and the flushed log
rows. -/
def matchReplay (r : World × PlayerData × Option (List RollbackAction)) :
    World × List RollbackAction :=
  (drainFixed r.1 (read_rollback_csv ((flush_buffer r.2.1 r.2.2).2.getD [])),
   (flush_buffer r.2.1 r.2.2).2.getD [])

/-- The whole round trip of one match for one player, starting from a
record freshly initialized by `teleport_to_match`/`init_rollback`: dispatch
the block events to the handlers, flush the buffer, then reverse-replay the
flushed durable log. -/
def match_then_rollback (w : World) (uuid : String)
    (es : List BlockEvent) : World × List RollbackAction :=
  matchReplay (play_events w (matchStart uuid) (some []) es)

/-- A configured kit (`config.yml` entry): its name and `maxPlayers`. -/
structure Kit where
  name : String
  maxPlayers : Nat
  deriving DecidableEq, Repr

/-- The occupancy scan of `FortCore.handle_kit_select` and `open_kit_menu`
(`fortcore.py` lines 430-432): count the player records whose state is MATCH
and whose `current_kit` is the given kit name. Computed from the records
each time, never read from a maintained counter. -/
def count_kit_players (pds : List PlayerData) (kit_name : String) : Nat :=
  pds.countP fun pd =>
    decide (pd.state = GameState.MATCH ∧ pd.current_kit = some kit_name)

/-- `FortCore.handle_kit_select` (`fortcore.py` lines 410-451): reject on an
out-of-range kit index, on a non-LOBBY selector, on a full match
(fresh-scan occupancy at or above `maxPlayers`), or during the 5-second
per-kit teleport cooldown; otherwise set the selector to TELEPORTING and
schedule the teleport. The scan runs over all player records: the selector's
own record (`data`) together with every other record (`others`). Returns the
selector's record and whether the join proceeded. -/
def handle_kit_select (kits : List Kit) (maps_count : Nat) (kit_index : Nat)
    (others : List PlayerData) (data : PlayerData) (cooldown_ok : Bool) :
    PlayerData × Bool :=
  if h : kit_index < kits.length ∧ kit_index < maps_count then
    let kit := kits.get ⟨kit_index, h.1⟩
    if data.state ≠ GameState.LOBBY then (data, false)
    else if kit.maxPlayers ≤ count_kit_players (data :: others) kit.name then
      (data, false)
    else if cooldown_ok = false then (data, false)
    else ({ data with state := GameState.TELEPORTING }, true)
  else (data, false)

/-- Result of the scheduled teleport step. -/
structure TeleportResult where
  data : PlayerData
  file : Option (List RollbackAction)
  notified_failure : Bool
  raised : Bool

/-- `FortCore.teleport_to_match` (`fortcore.py` lines 453-499).
`level_found` is whether the world-lookup chain (configured world, player's
dimension, first world) produced a world; `teleport_raises` is whether the
uncaught `player.teleport` call raises. With no world: notify the player and
revert the state to LOBBY. With a world and a raising teleport: the
exception propagates out of the function before any state assignment, so the
record is returned unchanged. Otherwise: set MATCH, store the kit and map,
and run `init_rollback` (clear buffers, create the log file with its
header). -/
def teleport_to_match (data : PlayerData)
    (file : Option (List RollbackAction)) (kit_name map_name : String)
    (level_found : Bool) (teleport_raises : Bool) : TeleportResult :=
  if level_found = false then
    (⟨{ data with state := GameState.LOBBY }, file, true, false⟩)
  else if teleport_raises then ⟨data, file, false, true⟩
  else
    let d1 := { data with state := GameState.MATCH,
                          current_kit := some kit_name,
                          current_map := some map_name,
                          rollback_buffer := [],
                          pending_rollback_actions := [],
                          csv_path := some (csvName data.uuid) }
    ⟨d1, some [], false, false⟩

/-- `FortCore.on_player_join` (`fortcore.py` lines 328-352) restricted to
its rollback-file effect: get or lazily create the player's record; if its
state is not ROLLBACK, delete any existing `rollback_<uuid>.csv` file
without reading or replaying it. -/
def on_player_join (pre : Option PlayerData)
    (file : Option (List RollbackAction)) (uuid : String) :
    PlayerData × Option (List RollbackAction) :=
  let data := match pre with
    | some d => d
    | none => PlayerData.mk0 uuid
  if data.state = GameState.ROLLBACK then (data, file)
  else (data, none)

/-- Decimal digits of a python `int()` literal body: at least one digit,
folded to its value. -/
def parseDigits (cs : List Char) : Option Nat :=
  match cs with
  | [] => none
  | _ =>
    if cs.all Char.isDigit
    then some (cs.foldl (fun n c => n * 10 + (c.toNat - 48)) 0)
    else none

/-- Model of python `int(s)` on a CSV field: an optional sign followed by
decimal digits parses to that integer, anything else raises, modelled as
`none` (python also tolerates surrounding whitespace and underscores, which
never occur in rows this plugin writes). -/
def pyInt (s : String) : Option Int :=
  match s.data with
  | '-' :: cs => (parseDigits cs).map (fun n => -(n : Int))
  | '+' :: cs => (parseDigits cs).map (fun n => (n : Int))
  | cs => (parseDigits cs).map (fun n => (n : Int))

/-- One row as produced by `csv.DictReader`: every field is a raw string. -/
structure CsvRow where
  timestamp : String
  action : String
  x : String
  y : String
  z : String
  block_type : String
  deriving DecidableEq, Repr

/-- `FortCore.revert_action` (`fortcore.py` lines 724-761) on a raw CSV row,
with its try/except modelled: if any of `int(x)`, `int(y)`, `int(z)` fails,
the exception is caught and the world is untouched; if the world lookup
chain fails (`level_ok = false`), the function returns without writing;
otherwise `"place"` writes air, `"break"` writes the recorded type, and any
other action string writes nothing. -/
def revert_action_str (w : World) (row : CsvRow) (level_ok : Bool) : World :=
  match pyInt row.x, pyInt row.y, pyInt row.z with
  | some x, some y, some z =>
      if level_ok = false then w
      else if row.action = "place" then setBlockAt w x y z "minecraft:air"
      else if row.action = "break" then setBlockAt w x y z row.block_type
      else w
  | _, _, _ => w

/-- The replay loop over raw CSV rows: every row is handed to
`revert_action_str` in turn; a failing row never stops the loop. -/
def process_rows (w : World) (rows : List CsvRow) (level_ok : Bool) : World :=
  rows.foldl (fun acc row => revert_action_str acc row level_ok) w

/-- `FortCore.read_rollback_csv` (`fortcore.py` lines 691-701) with its
try/except modelled: a successful read yields the data rows reversed; a
failed read is caught and yields the empty action list. -/
def read_rollback_csv_io (r : Except String (List CsvRow)) : List CsvRow :=
  match r with
  | Except.ok rows => rows.reverse
  | Except.error _ => []

/-- A sequence of block breaks dispatched to `on_block_break`, each followed
by the server turning the broken block to air. -/
def record_break_seq (w : World) (d : PlayerData)
    (file : Option (List RollbackAction)) :
    List Coord → World × PlayerData × Option (List RollbackAction)
  | [] => (w, d, file)
  | c :: cs =>
      let h := on_block_break w d file c.1 c.2.1 c.2.2 0
      record_break_seq (setBlockAt w c.1 c.2.1 c.2.2 "minecraft:air")
        h.1 h.2 cs

/-! Basic lemmas about single writes and replay folds. -/

theorem setBlockAt_self (w : World) (x y z : Int) (t : BlockType) :
    setBlockAt w x y z t (x, y, z) = t := by
  simp [setBlockAt]

theorem setBlockAt_other (w : World) (x y z : Int) (t : BlockType)
    (c : Coord) (h : c ≠ (x, y, z)) : setBlockAt w x y z t c = w c := by
  simp [setBlockAt, h]

theorem revert_action_other (w : World) (a : RollbackAction) (c : Coord)
    (h : c ≠ recPos a) : revert_action w a c = w c := by
  have h2 : c ≠ (a.x, a.y, a.z) := by simpa [recPos] using h
  unfold revert_action
  split_ifs <;> simp [setBlockAt, h2]

theorem revert_action_break (w : World) (a : RollbackAction)
    (h : a.action_type = "break") :
    revert_action w a (recPos a) = a.block_type := by
  simp [revert_action, recPos, h, setBlockAt]

theorem revert_action_place (w : World) (a : RollbackAction)
    (h : a.action_type = "place") :
    revert_action w a (recPos a) = "minecraft:air" := by
  simp [revert_action, recPos, h, setBlockAt]

theorem foldl_revert_untouched (l : List RollbackAction) (c : Coord) :
    ∀ w : World, (∀ r ∈ l, recPos r ≠ c) →
      l.foldl revert_action w c = w c := by
  induction l with
  | nil => intro w _; rfl
  | cons a t ih =>
      intro w h
      have ha : recPos a ≠ c := h a (List.mem_cons_self a t)
      have ht : ∀ r ∈ t, recPos r ≠ c := fun r hr => h r (List.mem_cons_of_mem a hr)
      calc (a :: t).foldl revert_action w c
          = t.foldl revert_action (revert_action w a) c := rfl
        _ = revert_action w a c := ih (revert_action w a) ht
        _ = w c := revert_action_other w a c (Ne.symm ha)

theorem foldl_revert_break (l : List RollbackAction)
    (hnd : (l.map recPos).Nodup) (r : RollbackAction) (hr : r ∈ l)
    (hb : r.action_type = "break") :
    ∀ w : World, l.foldl revert_action w (recPos r) = r.block_type := by
  induction l with
  | nil => cases hr
  | cons a t ih =>
      intro w
      rw [List.map_cons, List.nodup_cons] at hnd
      rcases List.mem_cons.mp hr with h1 | h1
      · subst h1
        have ht : ∀ s ∈ t, recPos s ≠ recPos r := by
          intro s hs heq
          exact hnd.1 (heq ▸ List.mem_map_of_mem recPos hs)
        calc (r :: t).foldl revert_action w (recPos r)
            = t.foldl revert_action (revert_action w r) (recPos r) := rfl
          _ = revert_action w r (recPos r) :=
              foldl_revert_untouched t (recPos r) (revert_action w r) ht
          _ = r.block_type := revert_action_break w r hb
      · exact ih hnd.2 h1 (revert_action w a)

theorem foldl_revert_place (l : List RollbackAction)
    (hnd : (l.map recPos).Nodup) (r : RollbackAction) (hr : r ∈ l)
    (hb : r.action_type = "place") :
    ∀ w : World, l.foldl revert_action w (recPos r) = "minecraft:air" := by
  induction l with
  | nil => cases hr
  | cons a t ih =>
      intro w
      rw [List.map_cons, List.nodup_cons] at hnd
      rcases List.mem_cons.mp hr with h1 | h1
      · subst h1
        have ht : ∀ s ∈ t, recPos s ≠ recPos r := by
          intro s hs heq
          exact hnd.1 (heq ▸ List.mem_map_of_mem recPos hs)
        calc (r :: t).foldl revert_action w (recPos r)
            = t.foldl revert_action (revert_action w r) (recPos r) := rfl
          _ = revert_action w r (recPos r) :=
              foldl_revert_untouched t (recPos r) (revert_action w r) ht
          _ = "minecraft:air" := revert_action_place w r hb
      · exact ih hnd.2 h1 (revert_action w a)

theorem drainFixed_eq_foldl (w : World) (l : List RollbackAction) :
    drainFixed w l = l.foldl revert_action w := by
  induction w, l using drainFixed.induct with
  | case1 w => rfl
  | case2 w a => rfl
  | case3 w a b rest ih => simpa [drainFixed] using ih

theorem drain_trace_id (l : List RollbackAction) : drain_trace l = l := by
  induction l using drain_trace.induct with
  | case1 => rfl
  | case2 a => rfl
  | case3 a b rest ih => simp [drain_trace, ih]

theorem drain_steps_eq (l : List RollbackAction) :
    drain_steps l = (l.length + 1) / 2 := by
  induction l using drain_steps.induct with
  | case1 => simp [drain_steps]
  | case2 a => simp [drain_steps]
  | case3 a b rest ih => simp [drain_steps, ih]; omega

/-! Lemmas about a recorded match (events, handlers, buffer). -/

theorem eventRecord_pos (w : World) (e : BlockEvent) :
    recPos (eventRecord w e) = eventPos e := by
  cases e <;> rfl

theorem applyEventWorld_other (w : World) (e : BlockEvent) (c : Coord)
    (h : c ≠ eventPos e) : applyEventWorld w e c = w c := by
  cases e with
  | break_ev x y z =>
      exact setBlockAt_other w x y z _ c (by simpa [eventPos] using h)
  | place_ev x y z t =>
      exact setBlockAt_other w x y z t c (by simpa [eventPos] using h)

theorem runMatch_map_pos (es : List BlockEvent) :
    ∀ w : World, (runMatch w es).2.map recPos = es.map eventPos := by
  induction es with
  | nil => intro w; rfl
  | cons e t ih =>
      intro w
      simp [runMatch, eventRecord_pos, ih (applyEventWorld w e)]

theorem runMatch_action_mem (es : List BlockEvent) :
    ∀ w : World, ∀ r ∈ (runMatch w es).2,
      r.action_type = "break" ∨ r.action_type = "place" := by
  induction es with
  | nil => intro w r hr; cases hr
  | cons e t ih =>
      intro w r hr
      rcases List.mem_cons.mp hr with h1 | h1
      · subst h1; cases e
        · left; rfl
        · right; rfl
      · exact ih (applyEventWorld w e) r h1

theorem runMatch_break_orig (es : List BlockEvent)
    (hnd : (es.map eventPos).Nodup) :
    ∀ w : World, ∀ r ∈ (runMatch w es).2,
      r.action_type = "break" → r.block_type = w (recPos r) := by
  induction es with
  | nil => intro w r hr; cases hr
  | cons e t ih =>
      rw [List.map_cons, List.nodup_cons] at hnd
      intro w r hr hb
      rcases List.mem_cons.mp hr with h1 | h1
      · subst h1; cases e with
        | break_ev x y z => simp [eventRecord, recPos]
        | place_ev x y z ty => simp [eventRecord] at hb
      · have h2 : r.block_type = applyEventWorld w e (recPos r) :=
          ih hnd.2 (applyEventWorld w e) r h1 hb
        have h3 : recPos r ∈ t.map eventPos := by
          have h4 := List.mem_map_of_mem recPos h1
          rwa [runMatch_map_pos t (applyEventWorld w e)] at h4
        have h5 : recPos r ≠ eventPos e := fun heq => hnd.1 (heq ▸ h3)
        rw [h2, applyEventWorld_other w e _ h5]

theorem play_events_eq (es : List BlockEvent) :
    ∀ (w : World) (d : PlayerData) (file : Option (List RollbackAction)),
      d.state = GameState.MATCH →
      play_events w d file es =
        ((runMatch w es).1,
         { d with rollback_buffer := d.rollback_buffer ++ (runMatch w es).2 },
         file) := by
  induction es with
  | nil => intro w d file _; simp [play_events, runMatch]
  | cons e t ih =>
      intro w d file hs
      cases e with
      | break_ev x y z =>
          have hstep : on_block_break w d file x y z 0 =
              ({ d with rollback_buffer := d.rollback_buffer ++
                  [⟨"break", x, y, z, w (x, y, z), 0⟩] }, file) := by
            simp [on_block_break, hs]
          simp only [play_events, hstep]
          rw [ih (applyEventWorld w (BlockEvent.break_ev x y z))
            { d with rollback_buffer := d.rollback_buffer ++
                [⟨"break", x, y, z, w (x, y, z), 0⟩] } file hs]
          simp [runMatch, eventRecord, List.append_assoc]
      | place_ev x y z ty =>
          have hstep : on_block_place d file x y z ty 0 =
              ({ d with rollback_buffer := d.rollback_buffer ++
                  [⟨"place", x, y, z, ty, 0⟩] }, file) := by
            simp [on_block_place, hs]
          simp only [play_events, hstep]
          rw [ih (applyEventWorld w (BlockEvent.place_ev x y z ty))
            { d with rollback_buffer := d.rollback_buffer ++
                [⟨"place", x, y, z, ty, 0⟩] } file hs]
          simp [runMatch, eventRecord, List.append_assoc]

/-- C1: for every sequence of BREAK/PLACE mutations at pairwise-distinct
coordinates recorded while the player is in MATCH, flushing the buffer and
then running the full reverse-replay (`read_rollback_csv` followed by
repeated `process_rollback_batch`, each record applied by `revert_action`)
restores every touched coordinate to its pre-match block type: a BREAK
record's coordinate is set back to the record's `originalBlockType` (which
is the pre-match type there) and a PLACE record's coordinate is set to
air. -/
theorem C1_round_trip (w : World) (uuid : String) (es : List BlockEvent)
    (hdist : (es.map eventPos).Nodup) :
    ∀ r ∈ (match_then_rollback w uuid es).2,
      (r.action_type = "break" →
        (match_then_rollback w uuid es).1 (recPos r) = r.block_type
        ∧ r.block_type = w (recPos r))
      ∧ (r.action_type = "place" →
        (match_then_rollback w uuid es).1 (recPos r) = "minecraft:air") := by
  have hplay := play_events_eq es w (matchStart uuid) (some []) rfl
  have hlog : (match_then_rollback w uuid es).2 = (runMatch w es).2 ∧
      (match_then_rollback w uuid es).1 =
        drainFixed (runMatch w es).1 (read_rollback_csv (runMatch w es).2) := by
    unfold match_then_rollback
    rw [hplay]
    cases hbuf : (runMatch w es).2 with
    | nil =>
        simp [matchReplay, flush_buffer, matchStart, PlayerData.mk0,
          read_rollback_csv, hbuf]
    | cons b bs =>
        simp [matchReplay, flush_buffer, matchStart, PlayerData.mk0, hbuf]
  intro r hr
  rw [hlog.1] at hr
  have hnd2 : ((read_rollback_csv (runMatch w es).2).map recPos).Nodup := by
    rw [read_rollback_csv, List.map_reverse, List.nodup_reverse,
      runMatch_map_pos]
    exact hdist
  have hr2 : r ∈ read_rollback_csv (runMatch w es).2 := by
    rw [read_rollback_csv, List.mem_reverse]; exact hr
  constructor
  · intro hb
    constructor
    · rw [hlog.2, drainFixed_eq_foldl]
      exact foldl_revert_break _ hnd2 r hr2 hb (runMatch w es).1
    · exact runMatch_break_orig es hdist w r hr hb
  · intro hp
    rw [hlog.2, drainFixed_eq_foldl]
    exact foldl_revert_place _ hnd2 r hr2 hp (runMatch w es).1

/-- Witness world: everything is stone before the match. -/
def w0 : World := fun _ => "minecraft:stone"

/-- Witness events: a break and a placement at two distinct coordinates. -/
def es0 : List BlockEvent :=
  [BlockEvent.break_ev 10 64 10, BlockEvent.place_ev 11 64 10 "minecraft:dirt"]

theorem C1_round_trip_witness :
    (⟨"break", 10, 64, 10, "minecraft:stone", 0⟩ : RollbackAction) ∈
        (match_then_rollback w0 "p1" es0).2
    ∧ (match_then_rollback w0 "p1" es0).1 (10, 64, 10) = "minecraft:stone" := by
  have hmem : (⟨"break", 10, 64, 10, "minecraft:stone", 0⟩ : RollbackAction) ∈
      (match_then_rollback w0 "p1" es0).2 := by decide
  refine ⟨hmem, ?_⟩
  have h := (C1_round_trip w0 "p1" es0 (by decide) _ hmem).1 rfl
  exact h.1

/-- The sequence of records the full replay applies, in application order:
`read_rollback_csv` reverses the flushed log, then the repeating task pops
records from the front of the pending queue. -/
def replay_trace (log : List RollbackAction) : List RollbackAction :=
  drain_trace (read_rollback_csv log)

/-- The spec's LIFO scenario at coordinate P = (10, 64, 10): a break of
stone, then a placement of dirt on the same coordinate. -/
def breakRec : RollbackAction := ⟨"break", 10, 64, 10, "minecraft:stone", 0⟩

/-- The later placement record of the LIFO scenario. -/
def placeRec : RollbackAction := ⟨"place", 10, 64, 10, "minecraft:dirt", 1⟩

/-- The flushed log of the LIFO scenario, in append order. -/
def lifo_log : List RollbackAction := [breakRec, placeRec]

/-- The coordinate P of the LIFO scenario. -/
def ptP : Coord := (10, 64, 10)

/-- C2: replay applies records in the exact reverse of log append order
(strict LIFO over the flushed log); in particular, for a log of
BREAK(stone)@P then PLACE(dirt)@P, replay first undoes the PLACE (air at P)
and then undoes the BREAK, so after replay P holds stone, not air. -/
theorem C2_lifo_order :
    (∀ log : List RollbackAction, replay_trace log = log.reverse)
    ∧ (∀ w : World,
        read_rollback_csv lifo_log = [placeRec, breakRec]
        ∧ revert_action w placeRec ptP = "minecraft:air"
        ∧ drainFixed w (read_rollback_csv lifo_log) ptP = "minecraft:stone"
        ∧ drainFixed w (read_rollback_csv lifo_log) ptP ≠ "minecraft:air") := by
  constructor
  · intro log
    rw [replay_trace, drain_trace_id, read_rollback_csv]
  · intro w
    refine ⟨rfl, rfl, rfl, fun h => ?_⟩
    have h2 : drainFixed w (read_rollback_csv lifo_log) ptP =
        "minecraft:stone" := rfl
    exact absurd (h2.symm.trans h) (by decide)

theorem process_rollback_batch_drop (w : World) (actions : List RollbackAction) :
    (process_rollback_batch w actions).2 = actions.drop 2 := by
  match actions with
  | [] => rfl
  | [a] => rfl
  | a :: b :: rest => rfl

/-- C5: replay is batched and bounded. A single invocation of the fixed
policy's `process_rollback_batch` pops at most 2 records, and strictly fewer
than the whole backlog when the backlog exceeds that ceiling; draining a
backlog of N records takes exactly ceil(N/2) invocations of the repeating
task. A single invocation of the adaptive policy pops at most the
`calculate_batch_params` ceiling for the backlog size — 10 under 100
records, 25 under 500, 40 under 1000, 60 above — hence never more than 60
records and never the whole of a backlog above its ceiling. -/
theorem C5_bounded_batch :
    (∀ (w : World) (actions : List RollbackAction),
        actions.length - (process_rollback_batch w actions).2.length ≤ 2
        ∧ (2 < actions.length → (process_rollback_batch w actions).2 ≠ []))
    ∧ (∀ l : List RollbackAction, drain_steps l = (l.length + 1) / 2)
    ∧ (∀ (w : World) (actions : List RollbackAction),
        actions.length - (process_rollback_batch_mgr w actions).2.length ≤ 60
        ∧ ((calculate_batch_params actions.length).1 < actions.length →
            (process_rollback_batch_mgr w actions).2 ≠ []))
    ∧ (∀ n : Nat,
        (n < 100 → (calculate_batch_params n).1 = 10)
        ∧ (100 ≤ n → n < 500 → (calculate_batch_params n).1 = 25)
        ∧ (500 ≤ n → n < 1000 → (calculate_batch_params n).1 = 40)
        ∧ (1000 ≤ n → (calculate_batch_params n).1 = 60)) := by
  refine ⟨fun w actions => ⟨?_, ?_⟩, drain_steps_eq,
    fun w actions => ⟨?_, ?_⟩, fun n => ?_⟩
  · rw [process_rollback_batch_drop, List.length_drop]; omega
  · intro h
    rw [process_rollback_batch_drop, ← List.length_pos, List.length_drop]
    omega
  · have hb : (calculate_batch_params actions.length).1 ≤ 60 := by
      rw [calculate_batch_params]; split_ifs <;> omega
    simp only [process_rollback_batch_mgr, List.length_drop]
    omega
  · intro h
    simp only [process_rollback_batch_mgr, ← List.length_pos, List.length_drop]
    omega
  · refine ⟨fun h => ?_, fun h1 h2 => ?_, fun h1 h2 => ?_, fun h => ?_⟩ <;>
      (rw [calculate_batch_params]; split_ifs <;> omega)

/-- A sample backlog of 1000 records, all breaks of stone. -/
def l1000 : List RollbackAction := List.replicate 1000 breakRec

theorem C5_bounded_batch_witness :
    (process_rollback_batch w0 l1000).2 ≠ []
    ∧ drain_steps l1000 = 500
    ∧ (process_rollback_batch_mgr w0 l1000).2 ≠ []
    ∧ (calculate_batch_params 1000).1 = 60 := by
  have hlen : l1000.length = 1000 := by
    rw [l1000, List.length_replicate]
  refine ⟨(C5_bounded_batch.1 w0 l1000).2 (by rw [hlen]; omega), ?_, ?_, ?_⟩
  · rw [C5_bounded_batch.2.1 l1000, hlen]
  · refine (C5_bounded_batch.2.2.1 w0 l1000).2 ?_
    rw [hlen]
    norm_num [calculate_batch_params]
  · exact (C5_bounded_batch.2.2.2 1000).2.2.2 (by omega)

/-- Running the repeating rollback task from a ROLLBACK-state record drains
the whole pending queue over the world, deletes the log file when a path is
recorded, and returns the cleared record in LOBBY state. -/
theorem run_rollback_task_eq (w : World) (file : Option (List RollbackAction))
    (d : PlayerData) (h : d.state = GameState.ROLLBACK) :
    run_rollback_task w file d =
      (drainFixed w d.pending_rollback_actions,
       if d.csv_path.isSome then none else file,
       d.cleared) := by
  induction w, file, d using run_rollback_task.induct with
  | case1 w file d hp =>
      rw [run_rollback_task]
      rw [hp]
      simp [finish_rollback_off, h, hp, drainFixed]
  | case2 w file d a hp =>
      rw [run_rollback_task]
      rw [hp]
      simp only [finish_rollback_off, h]
      simp [hp, drainFixed, PlayerData.cleared]
  | case3 w file d a b rest hp ih =>
      rw [run_rollback_task]
      rw [hp]
      simp only []
      rw [ih h]
      simp [hp, drainFixed, PlayerData.cleared]

/-- C3: crash resumption is equivalent to a live-triggered rollback. For a
log file holding at least one record and no pre-existing in-memory state,
the startup scan (`resume_incomplete_rollbacks`, run to completion) and a
live `start_rollback` on a matching in-memory MATCH record with the same
log contents and an empty buffer produce the identical final world, the
same log-file deletion, and the same LOBBY end state, player offline in
both; and a log file with no data rows (header only) or no file at all is
deleted or ignored with no replay and no state created. -/
theorem C3_crash_resume_equiv :
    (∀ (w : World) (uuid : String) (rows : List RollbackAction)
       (mk mp : Option String), rows ≠ [] →
        resume_one w uuid (some rows) none =
          ((live_rollback w (some rows)
              { PlayerData.mk0 uuid with state := GameState.MATCH,
                                         csv_path := some (csvName uuid),
                                         current_kit := mk,
                                         current_map := mp }).1,
           (live_rollback w (some rows)
              { PlayerData.mk0 uuid with state := GameState.MATCH,
                                         csv_path := some (csvName uuid),
                                         current_kit := mk,
                                         current_map := mp }).2.1,
           some (live_rollback w (some rows)
              { PlayerData.mk0 uuid with state := GameState.MATCH,
                                         csv_path := some (csvName uuid),
                                         current_kit := mk,
                                         current_map := mp }).2.2))
    ∧ (∀ (w : World) (uuid : String) (pre : Option PlayerData),
        resume_one w uuid (some []) pre = (w, none, pre))
    ∧ (∀ (w : World) (uuid : String) (pre : Option PlayerData),
        resume_one w uuid none pre = (w, none, pre)) := by
  refine ⟨fun w uuid rows mk mp hrows => ?_, fun w uuid pre => rfl,
    fun w uuid pre => rfl⟩
  have hrev : rows.reverse ≠ [] := by
    simpa using hrows
  have hrun : ∀ (pend : List RollbackAction) (km mpp : Option String),
      run_rollback_task w (some rows)
        ⟨uuid, GameState.ROLLBACK, [], some (csvName uuid), mpp, km, pend⟩ =
      (drainFixed w pend, none,
       ⟨uuid, GameState.LOBBY, [], none, none, none, []⟩) := by
    intro pend km mpp
    rw [run_rollback_task_eq _ _ _ rfl]
    simp [PlayerData.cleared]
  have hres : resume_one w uuid (some rows) none =
      (drainFixed w rows.reverse, none,
       some ⟨uuid, GameState.LOBBY, [], none, none, none, []⟩) := by
    simp only [resume_one, read_rollback_csv, PlayerData.mk0,
      if_neg hrows, if_neg hrev]
    rw [hrun]
  have hstart : start_rollback w (some rows)
      ⟨uuid, GameState.MATCH, [], some (csvName uuid), mp, mk, []⟩ =
      ⟨w, some rows,
       ⟨uuid, GameState.ROLLBACK, [], some (csvName uuid), mp, mk,
        rows.reverse⟩, true⟩ := by
    simp [start_rollback, flush_buffer, read_rollback_csv, hrows]
  have hlive : live_rollback w (some rows)
      { PlayerData.mk0 uuid with state := GameState.MATCH,
                                 csv_path := some (csvName uuid),
                                 current_kit := mk,
                                 current_map := mp } =
      (drainFixed w rows.reverse, none,
       ⟨uuid, GameState.LOBBY, [], none, none, none, []⟩) := by
    show live_rollback w (some rows)
      ⟨uuid, GameState.MATCH, [], some (csvName uuid), mp, mk, []⟩ = _
    simp only [live_rollback, hstart]
    rw [hrun]
    simp
  rw [hres, hlive]

/-- The 5-record log of the spec's crash-resumption scenario. -/
def rows5 : List RollbackAction :=
  [⟨"break", 0, 64, 0, "minecraft:stone", 0⟩,
   ⟨"place", 1, 64, 0, "minecraft:dirt", 1⟩,
   ⟨"break", 2, 64, 0, "minecraft:grass_block", 2⟩,
   ⟨"place", 3, 64, 0, "minecraft:oak_planks", 3⟩,
   ⟨"break", 4, 64, 0, "minecraft:sand", 4⟩]

theorem C3_crash_resume_equiv_witness :
    resume_one w0 "p1" (some rows5) none =
      ((live_rollback w0 (some rows5)
          { PlayerData.mk0 "p1" with state := GameState.MATCH,
                                     csv_path := some (csvName "p1") }).1,
       (live_rollback w0 (some rows5)
          { PlayerData.mk0 "p1" with state := GameState.MATCH,
                                     csv_path := some (csvName "p1") }).2.1,
       some (live_rollback w0 (some rows5)
          { PlayerData.mk0 "p1" with state := GameState.MATCH,
                                     csv_path := some (csvName "p1") }).2.2) := by
  have h := C3_crash_resume_equiv.1 w0 "p1" rows5 none none (by decide)
  simpa [PlayerData.mk0] using h

theorem flush_buffer_data (d : PlayerData) (file : Option (List RollbackAction)) :
    (flush_buffer d file).1 = d
    ∨ (flush_buffer d file).1 = { d with rollback_buffer := [] } := by
  rcases hc : d.csv_path with _ | p <;>
    rcases hb : d.rollback_buffer with _ | ⟨b, bs⟩ <;>
    simp [flush_buffer, hc, hb]

theorem flush_buffer_state (d : PlayerData) (file : Option (List RollbackAction)) :
    (flush_buffer d file).1.state = d.state := by
  rcases flush_buffer_data d file with h | h <;> rw [h]

theorem flush_buffer_cleared (d : PlayerData) (file : Option (List RollbackAction)) :
    ((flush_buffer d file).1).cleared = d.cleared := by
  rcases flush_buffer_data d file with h | h
  · rw [h]
  · rw [h]; rfl

theorem start_rollback_rollback_state (w : World)
    (file : Option (List RollbackAction)) (d : PlayerData)
    (h : d.state = GameState.ROLLBACK) :
    start_rollback w file d = ⟨w, file, d, false⟩ := by
  simp [start_rollback, h]

theorem start_rollback_cleared (w : World)
    (file : Option (List RollbackAction)) (d : PlayerData) :
    start_rollback w file d.cleared = ⟨w, file, d.cleared, false⟩ := by
  rcases file with _ | rows <;>
    simp [start_rollback, PlayerData.cleared, flush_buffer,
      finish_rollback_off]

/-- C4: `start_rollback` is idempotent under double trigger. A call on a
player already in ROLLBACK changes nothing — not the world, not the log
file, not the record (hence not the pending queue) — and schedules no task;
and for any starting record at all, the second of two consecutive calls is
such a no-op, so two consecutive calls produce exactly the replay task (if
any) of the first. -/
theorem C4_idempotent_start :
    (∀ (w : World) (file : Option (List RollbackAction)) (d : PlayerData),
        d.state = GameState.ROLLBACK →
        start_rollback w file d = ⟨w, file, d, false⟩)
    ∧ (∀ (w : World) (file : Option (List RollbackAction)) (d : PlayerData),
        start_rollback (start_rollback w file d).world
            (start_rollback w file d).file (start_rollback w file d).data =
          ⟨(start_rollback w file d).world, (start_rollback w file d).file,
           (start_rollback w file d).data, false⟩) := by
  refine ⟨fun w file d h => start_rollback_rollback_state w file d h,
    fun w file d => ?_⟩
  by_cases hR : d.state = GameState.ROLLBACK
  · have h1 := start_rollback_rollback_state w file d hR
    rw [h1]
    exact h1
  · generalize hr : start_rollback w file d = r
    rw [start_rollback, if_neg hR] at hr
    dsimp only [] at hr
    have hstate := flush_buffer_state { d with state := GameState.ROLLBACK } file
    have hclear := flush_buffer_cleared { d with state := GameState.ROLLBACK } file
    split at hr
    case _ p rows heq1 heq2 =>
      by_cases hrows : read_rollback_csv rows = []
      · rw [if_pos hrows] at hr
        have hfin : (finish_rollback_off w
            (flush_buffer { d with state := GameState.ROLLBACK } file).2
            (flush_buffer { d with state := GameState.ROLLBACK } file).1).2.2 =
            ({ d with state := GameState.ROLLBACK } : PlayerData).cleared := by
          rw [finish_rollback_off, if_neg (by rw [hstate]; simp)]
          exact hclear
        rw [← hr]
        simp only [hfin]
        exact start_rollback_cleared _ _ _
      · rw [if_neg hrows] at hr
        have hds : r.data.state = GameState.ROLLBACK := by
          rw [← hr]
          exact hstate
        rw [start_rollback_rollback_state _ _ _ hds]
    case _ hne =>
      have hfin : (finish_rollback_off w
          (flush_buffer { d with state := GameState.ROLLBACK } file).2
          (flush_buffer { d with state := GameState.ROLLBACK } file).1).2.2 =
          ({ d with state := GameState.ROLLBACK } : PlayerData).cleared := by
        rw [finish_rollback_off, if_neg (by rw [hstate]; simp)]
        exact hclear
      rw [← hr]
      simp only [hfin]
      exact start_rollback_cleared _ _ _

theorem C4_idempotent_start_witness :
    start_rollback w0 (some rows5)
        { PlayerData.mk0 "p1" with state := GameState.ROLLBACK,
                                   pending_rollback_actions := rows5.reverse } =
      ⟨w0, some rows5,
       { PlayerData.mk0 "p1" with state := GameState.ROLLBACK,
                                  pending_rollback_actions := rows5.reverse },
       false⟩ :=
  C4_idempotent_start.1 w0 (some rows5)
    { PlayerData.mk0 "p1" with state := GameState.ROLLBACK,
                               pending_rollback_actions := rows5.reverse } rfl

/-- 51 distinct break coordinates along the x axis. -/
def coords51 : List Coord := (List.range 51).map (fun i => ((i : Int), 0, 0))

/-- A record in a running match with its log file initialized. -/
def dM : PlayerData := matchStart "p1"

set_option maxRecDepth 8000 in
/-- C6 counterexample: recording 51 block breaks in a row from MATCH state
leaves all 51 records in the in-memory buffer — past the spec's example
threshold of 50 — and writes nothing to the durable log file, which still
holds only its header. The handlers never flush at any size. -/
theorem C6_counterexample :
    (record_break_seq w0 dM (some []) coords51).2.1.rollback_buffer.length = 51
    ∧ 50 < (record_break_seq w0 dM (some []) coords51).2.1.rollback_buffer.length
    ∧ (record_break_seq w0 dM (some []) coords51).2.2 = some [] := by
  decide

/-- C6 amended: recording a mutation never triggers a flush, at any buffer
size: `on_block_break`/`on_block_place` only append to the in-memory
buffer, leaving the durable log untouched, so the unflushed buffer grows by
one per event without bound; flushing happens only in the periodic
60-second `flush_all_buffers` task, on disconnect/leave/death-triggered
rollback start, and on plugin disable. -/
theorem C6_no_threshold_flush :
    ∀ (cs : List Coord) (w : World) (d : PlayerData)
      (file : Option (List RollbackAction)),
      d.state = GameState.MATCH →
      (record_break_seq w d file cs).2.1.rollback_buffer.length
          = d.rollback_buffer.length + cs.length
      ∧ (record_break_seq w d file cs).2.2 = file := by
  intro cs
  induction cs with
  | nil => intro w d file _; simp [record_break_seq]
  | cons c cs ih =>
      intro w d file hs
      have hstep : on_block_break w d file c.1 c.2.1 c.2.2 0 =
          ({ d with rollback_buffer := d.rollback_buffer ++
              [⟨"break", c.1, c.2.1, c.2.2, w (c.1, c.2.1, c.2.2), 0⟩] },
           file) := by
        simp [on_block_break, hs]
      simp only [record_break_seq, hstep]
      have h2 := ih (setBlockAt w c.1 c.2.1 c.2.2 "minecraft:air")
        { d with rollback_buffer := d.rollback_buffer ++
            [⟨"break", c.1, c.2.1, c.2.2, w (c.1, c.2.1, c.2.2), 0⟩] }
        file hs
      refine ⟨?_, h2.2⟩
      rw [h2.1]
      simp
      omega

theorem C6_no_threshold_flush_witness :
    (record_break_seq w0 dM (some []) coords51).2.1.rollback_buffer.length
        = dM.rollback_buffer.length + coords51.length
    ∧ (record_break_seq w0 dM (some []) coords51).2.2 = some [] :=
  C6_no_threshold_flush coords51 w0 dM (some []) rfl

theorem count_kit_players_cons (pd : PlayerData) (pds : List PlayerData)
    (n : String) :
    count_kit_players (pd :: pds) n = count_kit_players pds n +
      (if pd.state = GameState.MATCH ∧ pd.current_kit = some n then 1
       else 0) := by
  simp [count_kit_players, List.countP_cons]

/-- C7: the capacity gate on kit selection uses a fresh scan of all player
records (`count_kit_players`, counting `state = MATCH` with the kit's name)
rather than a maintained counter. At or above `maxPlayers` the join is
rejected and the selecting player's record is unchanged (stays LOBBY);
at `maxPlayers - 1`, selection succeeds (the player enters TELEPORTING) and
after the scheduled teleport completes the player is in MATCH and the scan
counts exactly `maxPlayers`. -/
theorem C7_capacity_gate :
    ∀ (kits : List Kit) (maps_count kit_index : Nat)
      (others : List PlayerData) (d : PlayerData) (cool : Bool) (mp : String)
      (h1 : kit_index < kits.length) (h2 : kit_index < maps_count),
      (d.state = GameState.LOBBY →
        (kits.get ⟨kit_index, h1⟩).maxPlayers ≤
          count_kit_players (d :: others) (kits.get ⟨kit_index, h1⟩).name →
        handle_kit_select kits maps_count kit_index others d cool = (d, false))
      ∧ (d.state = GameState.LOBBY →
          count_kit_players (d :: others) (kits.get ⟨kit_index, h1⟩).name + 1 =
            (kits.get ⟨kit_index, h1⟩).maxPlayers →
          handle_kit_select kits maps_count kit_index others d true =
            ({ d with state := GameState.TELEPORTING }, true)
          ∧ (teleport_to_match { d with state := GameState.TELEPORTING }
              (some []) (kits.get ⟨kit_index, h1⟩).name mp true
              false).data.state = GameState.MATCH
          ∧ count_kit_players
              ((teleport_to_match { d with state := GameState.TELEPORTING }
                  (some []) (kits.get ⟨kit_index, h1⟩).name mp true
                  false).data :: others)
              (kits.get ⟨kit_index, h1⟩).name
            = (kits.get ⟨kit_index, h1⟩).maxPlayers) := by
  intro kits maps_count kit_index others d cool mp h1 h2
  constructor
  · intro hL hcap
    rw [handle_kit_select, dif_pos ⟨h1, h2⟩]
    simp only [List.get_eq_getElem] at hcap
    simp [hL, hcap]
  · intro hL hcnt
    have hcap : ¬ ((kits.get ⟨kit_index, h1⟩).maxPlayers ≤
        count_kit_players (d :: others) (kits.get ⟨kit_index, h1⟩).name) := by
      omega
    refine ⟨?_, rfl, ?_⟩
    · rw [handle_kit_select, dif_pos ⟨h1, h2⟩]
      simp only [List.get_eq_getElem] at hcap
      simp [hL, hcap]
    · have hd2 : (teleport_to_match { d with state := GameState.TELEPORTING }
          (some []) (kits.get ⟨kit_index, h1⟩).name mp true false).data =
          { d with state := GameState.MATCH,
                   current_kit := some (kits.get ⟨kit_index, h1⟩).name,
                   current_map := some mp,
                   rollback_buffer := [], pending_rollback_actions := [],
                   csv_path := some (csvName d.uuid) } := by
        simp [teleport_to_match]
      rw [hd2, count_kit_players_cons]
      rw [count_kit_players_cons] at hcnt
      simp only [hL] at hcnt
      simp at hcnt ⊢
      omega

/-- A second player already in a MATCH on the witness kit. -/
def otherMatchPlayer : PlayerData :=
  ⟨"p2", GameState.MATCH, [], none, some "m1", some "Diamond SMP", []⟩

/-- The witness kit list: one kit with room for 2 players. -/
def kits0 : List Kit := [⟨"Diamond SMP", 2⟩]

theorem C7_capacity_gate_witness :
    handle_kit_select kits0 1 0 [otherMatchPlayer, otherMatchPlayer]
        (PlayerData.mk0 "p1") true = (PlayerData.mk0 "p1", false)
    ∧ handle_kit_select kits0 1 0 [otherMatchPlayer]
        (PlayerData.mk0 "p1") true =
      ({ PlayerData.mk0 "p1" with state := GameState.TELEPORTING }, true)
    ∧ count_kit_players
        ((teleport_to_match
            { PlayerData.mk0 "p1" with state := GameState.TELEPORTING }
            (some []) "Diamond SMP" "m1" true false).data ::
          [otherMatchPlayer]) "Diamond SMP" = 2 := by
  refine ⟨?_, ?_, ?_⟩
  · exact (C7_capacity_gate kits0 1 0 [otherMatchPlayer, otherMatchPlayer]
      (PlayerData.mk0 "p1") true "m1" (by decide) (by decide)).1 rfl (by decide)
  · exact ((C7_capacity_gate kits0 1 0 [otherMatchPlayer]
      (PlayerData.mk0 "p1") true "m1" (by decide) (by decide)).2 rfl
      (by decide)).1
  · exact ((C7_capacity_gate kits0 1 0 [otherMatchPlayer]
      (PlayerData.mk0 "p1") true "m1" (by decide) (by decide)).2 rfl
      (by decide)).2.2

/-- A player mid-transition, as `handle_kit_select` leaves them. -/
def dTel : PlayerData := { PlayerData.mk0 "p1" with state := GameState.TELEPORTING }

/-- C8 counterexample: when the world lookup succeeds but the uncaught
`player.teleport` call raises, `teleport_to_match` is aborted by the
exception before any state assignment, so the player's state remains
TELEPORTING — neither MATCH nor LOBBY, contradicting the claim that the
teleport step always ends in one of those two states. -/
theorem C8_counterexample :
    (teleport_to_match dTel none "Diamond SMP" "m1" true true).data.state
        = GameState.TELEPORTING
    ∧ GameState.TELEPORTING ≠ GameState.MATCH
    ∧ GameState.TELEPORTING ≠ GameState.LOBBY := by
  decide

/-- C8 amended: when the world-lookup chain produces no world,
`teleport_to_match` notifies the player and reverts the state to LOBBY
(regardless of the teleport flag, which is never reached); when a world is
found and the teleport executes, the state becomes MATCH; but when the
teleport call raises, the exception propagates uncaught and the record is
returned unchanged, so a TELEPORTING player stays TELEPORTING. -/
theorem C8_teleport_failure :
    ∀ (d : PlayerData) (file : Option (List RollbackAction))
      (kn mn : String) (b : Bool),
      ((teleport_to_match d file kn mn false b).data.state = GameState.LOBBY
        ∧ (teleport_to_match d file kn mn false b).notified_failure = true)
      ∧ (teleport_to_match d file kn mn true false).data.state
          = GameState.MATCH
      ∧ (teleport_to_match d file kn mn true true).data = d := by
  intro d file kn mn b
  refine ⟨⟨?_, ?_⟩, rfl, rfl⟩ <;> simp [teleport_to_match]

/-- C9: replay and log I/O failures are contained. A row whose coordinate
fields fail `int()` is skipped by the caught exception inside
`revert_action` while the loop continues, so the replayed world equals the
replay without that row; and a failed log read yields the empty action
list. -/
theorem C9_error_containment :
    (∀ (w : World) (level_ok : Bool) (pre post : List CsvRow) (bad : CsvRow),
        pyInt bad.x = none ∨ pyInt bad.y = none ∨ pyInt bad.z = none →
        process_rows w (pre ++ bad :: post) level_ok =
          process_rows w (pre ++ post) level_ok)
    ∧ (∀ e : String, read_rollback_csv_io (Except.error e) = []) := by
  constructor
  · intro w level_ok pre post bad hbad
    have hskip : ∀ w2 : World, revert_action_str w2 bad level_ok = w2 := by
      intro w2
      rcases hbad with h | h | h <;>
        · rw [revert_action_str]
          rcases hx : pyInt bad.x with _ | vx <;>
            rcases hy : pyInt bad.y with _ | vy <;>
            rcases hz : pyInt bad.z with _ | vz <;>
            simp_all
    simp only [process_rows, List.foldl_append, List.foldl_cons]
    rw [hskip]
  · intro e; rfl

/-- A malformed CSV row: its x field does not parse as an integer. -/
def badRow : CsvRow := ⟨"0", "break", "n/a", "64", "10", "minecraft:stone"⟩

/-- A well-formed CSV row reverting a break of stone. -/
def goodRow : CsvRow := ⟨"0", "break", "10", "64", "10", "minecraft:stone"⟩

/-- A well-formed CSV row reverting a placement. -/
def goodRow2 : CsvRow := ⟨"1", "place", "11", "64", "10", "minecraft:dirt"⟩

theorem C9_error_containment_witness :
    process_rows w0 ([goodRow] ++ badRow :: [goodRow2]) true =
      process_rows w0 ([goodRow] ++ [goodRow2]) true
    ∧ read_rollback_csv_io (Except.error "disk error") = [] :=
  ⟨C9_error_containment.1 w0 true [goodRow] [goodRow2] badRow
      (Or.inl (by decide)),
   C9_error_containment.2 "disk error"⟩

/-- C10: when a player joins and their in-memory record is not in ROLLBACK
(including the fresh LOBBY record lazily created for a returning player
after a restart), `on_player_join` deletes any existing durable rollback
log for that player without replaying it; consequently the delayed startup
resume scan, running afterwards, finds no file for that player and replays
nothing, leaving the world untouched and the record as the join left it. -/
theorem C10_join_discards_log :
    ∀ (pre : Option PlayerData) (file : Option (List RollbackAction))
      (uuid : String),
      (∀ d0, pre = some d0 → d0.state ≠ GameState.ROLLBACK) →
      (on_player_join pre file uuid).2 = none
      ∧ (∀ w : World,
          resume_one w uuid (on_player_join pre file uuid).2
            (some (on_player_join pre file uuid).1) =
          (w, none, some (on_player_join pre file uuid).1)) := by
  intro pre file uuid hpre
  have hjoin : (on_player_join pre file uuid).2 = none := by
    rcases pre with _ | d0
    · simp [on_player_join, PlayerData.mk0]
    · have hd0 := hpre d0 rfl
      simp [on_player_join, hd0]
  refine ⟨hjoin, fun w => ?_⟩
  rw [hjoin]
  rfl

theorem C10_join_discards_log_witness :
    (on_player_join none (some rows5) "p1").2 = none
    ∧ (resume_one w0 "p1" (on_player_join none (some rows5) "p1").2
        (some (on_player_join none (some rows5) "p1").1) =
       (w0, none, some (on_player_join none (some rows5) "p1").1)) := by
  have h := C10_join_discards_log none (some rows5) "p1"
    (fun d0 hd0 => by cases hd0)
  exact ⟨h.1, h.2 w0⟩

end FortCore
